import Mathlib

/-!
Verification development for the staged research pipeline in
`Deep_research_agent/main.py`.

The embedding is shallow: every Python function relevant to the claims is
translated into an executable Lean definition.  External effects are made
explicit parameters:

* an HTTP provider response is `Option (List RawRec)` — `none` models the
  request raising (caught inside the fetch function), `some rs` models a
  successful response whose `results` / `organic_results` field holds `rs`
  (field values are modelled as strings, as the provider APIs return);
* a model invocation (`Runner.run_streamed` plus the async event loop) is
  `Option (List String)` — `none` models the invocation raising, `some ds`
  models the stream of text deltas received in arrival order;
* `datetime.now().year` is a string parameter `year`.

Python's `json.loads` is modelled by `jsonLoads` below (restricted to the
JSON fragment actually exercised: null, booleans, integers, strings with
basic escapes, arrays, objects; floats and `\u` escapes are rejected by the
model — no claim depends on them).  The two `re.search` calls of the
extraction cascade are modelled exactly, including lazy/greedy submatch
semantics, by `findArrayMatch` and `findTrailingObj`.
-/

/-- Left and right curly-brace characters, named to keep string literals free
of braces. -/
def lbrace : Char := Char.ofNat 123

def rbrace : Char := Char.ofNat 125

/-- Python's `str.strip` whitespace class (also regex `\s`):
space, tab, newline, carriage return, vertical tab, form feed. -/
def isPyWS (c : Char) : Bool :=
  c = ' ' || c = '\t' || c = '\n' || c = '\r' || c = '\x0b' || c = '\x0c'

/-- Whitespace skipped by Python's `json.loads` (JSON whitespace). -/
def isJsonWS (c : Char) : Bool :=
  c = ' ' || c = '\t' || c = '\n' || c = '\r'

/-- `str.strip()` on a character list. -/
def pyStripL (l : List Char) : List Char :=
  ((l.dropWhile isPyWS).reverse.dropWhile isPyWS).reverse

/-- `str.strip()` on a string. -/
def pyStrip (s : String) : String :=
  String.mk (pyStripL s.toList)

/-- Python's substring test `pat in hay` on character lists. -/
def subListB (pat : List Char) : List Char → Bool
  | [] => pat.isEmpty
  | c :: rest => pat.isPrefixOf (c :: rest) || subListB pat rest

/-- Python's substring test `pat in hay` on strings. -/
def containsStr (hay pat : String) : Bool :=
  subListB pat.toList hay.toList

/-- One step of `re.sub(pat, "", s)` for a literal pattern: remove all
non-overlapping occurrences, scanning left to right (fuelled). -/
def removeSubAux (pat : List Char) : Nat → List Char → List Char
  | 0, l => l
  | _ + 1, [] => []
  | n + 1, c :: rest =>
    if pat ≠ [] ∧ pat.isPrefixOf (c :: rest) then
      removeSubAux pat n ((c :: rest).drop pat.length)
    else
      c :: removeSubAux pat n rest

/-- `re.sub(pat, "", s)` for a literal (regex-metacharacter-free) pattern. -/
def removeSubStr (pat s : String) : String :=
  String.mk (removeSubAux pat.toList s.toList.length s.toList)

/-- JSON values, as produced by the modelled `json.loads`. -/
inductive Json where
  | jnull : Json
  | jbool : Bool → Json
  | jnum : Int → Json
  | jstr : String → Json
  | jarr : List Json → Json
  | jobj : List (String × Json) → Json
deriving Repr

mutual

/-- Decidable equality on JSON values (manual, as the nested inductive defeats
the deriving handler). -/
def jsonDecEq : (a b : Json) → Decidable (a = b)
  | Json.jnull, Json.jnull => isTrue rfl
  | Json.jbool a, Json.jbool b =>
    match decEq a b with
    | isTrue h => isTrue (h ▸ rfl)
    | isFalse h => isFalse (fun e => h (Json.jbool.inj e))
  | Json.jnum a, Json.jnum b =>
    match decEq a b with
    | isTrue h => isTrue (h ▸ rfl)
    | isFalse h => isFalse (fun e => h (Json.jnum.inj e))
  | Json.jstr a, Json.jstr b =>
    match decEq a b with
    | isTrue h => isTrue (h ▸ rfl)
    | isFalse h => isFalse (fun e => h (Json.jstr.inj e))
  | Json.jarr a, Json.jarr b =>
    match jsonListDecEq a b with
    | isTrue h => isTrue (h ▸ rfl)
    | isFalse h => isFalse (fun e => h (Json.jarr.inj e))
  | Json.jobj a, Json.jobj b =>
    match jsonKVsDecEq a b with
    | isTrue h => isTrue (h ▸ rfl)
    | isFalse h => isFalse (fun e => h (Json.jobj.inj e))
  | Json.jnull, Json.jbool _ => isFalse (fun e => Json.noConfusion e)
  | Json.jnull, Json.jnum _ => isFalse (fun e => Json.noConfusion e)
  | Json.jnull, Json.jstr _ => isFalse (fun e => Json.noConfusion e)
  | Json.jnull, Json.jarr _ => isFalse (fun e => Json.noConfusion e)
  | Json.jnull, Json.jobj _ => isFalse (fun e => Json.noConfusion e)
  | Json.jbool _, Json.jnull => isFalse (fun e => Json.noConfusion e)
  | Json.jbool _, Json.jnum _ => isFalse (fun e => Json.noConfusion e)
  | Json.jbool _, Json.jstr _ => isFalse (fun e => Json.noConfusion e)
  | Json.jbool _, Json.jarr _ => isFalse (fun e => Json.noConfusion e)
  | Json.jbool _, Json.jobj _ => isFalse (fun e => Json.noConfusion e)
  | Json.jnum _, Json.jnull => isFalse (fun e => Json.noConfusion e)
  | Json.jnum _, Json.jbool _ => isFalse (fun e => Json.noConfusion e)
  | Json.jnum _, Json.jstr _ => isFalse (fun e => Json.noConfusion e)
  | Json.jnum _, Json.jarr _ => isFalse (fun e => Json.noConfusion e)
  | Json.jnum _, Json.jobj _ => isFalse (fun e => Json.noConfusion e)
  | Json.jstr _, Json.jnull => isFalse (fun e => Json.noConfusion e)
  | Json.jstr _, Json.jbool _ => isFalse (fun e => Json.noConfusion e)
  | Json.jstr _, Json.jnum _ => isFalse (fun e => Json.noConfusion e)
  | Json.jstr _, Json.jarr _ => isFalse (fun e => Json.noConfusion e)
  | Json.jstr _, Json.jobj _ => isFalse (fun e => Json.noConfusion e)
  | Json.jarr _, Json.jnull => isFalse (fun e => Json.noConfusion e)
  | Json.jarr _, Json.jbool _ => isFalse (fun e => Json.noConfusion e)
  | Json.jarr _, Json.jnum _ => isFalse (fun e => Json.noConfusion e)
  | Json.jarr _, Json.jstr _ => isFalse (fun e => Json.noConfusion e)
  | Json.jarr _, Json.jobj _ => isFalse (fun e => Json.noConfusion e)
  | Json.jobj _, Json.jnull => isFalse (fun e => Json.noConfusion e)
  | Json.jobj _, Json.jbool _ => isFalse (fun e => Json.noConfusion e)
  | Json.jobj _, Json.jnum _ => isFalse (fun e => Json.noConfusion e)
  | Json.jobj _, Json.jstr _ => isFalse (fun e => Json.noConfusion e)
  | Json.jobj _, Json.jarr _ => isFalse (fun e => Json.noConfusion e)

/-- Decidable equality on lists of JSON values. -/
def jsonListDecEq : (a b : List Json) → Decidable (a = b)
  | [], [] => isTrue rfl
  | [], _ :: _ => isFalse (fun e => List.noConfusion e)
  | _ :: _, [] => isFalse (fun e => List.noConfusion e)
  | x :: xs, y :: ys =>
    match jsonDecEq x y with
    | isTrue h1 =>
      match jsonListDecEq xs ys with
      | isTrue h2 => isTrue (h1 ▸ h2 ▸ rfl)
      | isFalse h2 => isFalse (fun e => h2 (List.cons.inj e).2
)
    | isFalse h1 => isFalse (fun e => h1 (List.cons.inj e).1)

/-- Decidable equality on JSON object member lists. -/
def jsonKVsDecEq : (a b : List (String × Json)) → Decidable (a = b)
  | [], [] => isTrue rfl
  | [], _ :: _ => isFalse (fun e => List.noConfusion e)
  | _ :: _, [] => isFalse (fun e => List.noConfusion e)
  | (k1, v1) :: xs, (k2, v2) :: ys =>
    match decEq k1 k2 with
    | isTrue hk =>
      match jsonDecEq v1 v2 with
      | isTrue hv =>
        match jsonKVsDecEq xs ys with
        | isTrue h2 => isTrue (hk ▸ hv ▸ h2 ▸ rfl)
        | isFalse h2 => isFalse (fun e => h2 (List.cons.inj e).2)
      | isFalse hv => isFalse (fun e =>
          hv (congrArg Prod.snd (List.cons.inj e).1))
    | isFalse hk => isFalse (fun e =>
        hk (congrArg Prod.fst (List.cons.inj e).1))

end

instance : DecidableEq Json := jsonDecEq

/-- Field lookup on a JSON object; `none` on non-objects or missing keys
(Python: `KeyError` / `TypeError` on subscripting). -/
def jGet (j : Json) (k : String) : Option Json :=
  match j with
  | Json.jobj kvs => kvs.lookup k
  | _ => none

/-- JSON string-escape decoding (the fragment without `\u`). -/
def unescapeChar (c : Char) : Option Char :=
  if c = '"' then some '"'
  else if c = '\\' then some '\\'
  else if c = '/' then some '/'
  else if c = 'n' then some '\n'
  else if c = 't' then some '\t'
  else if c = 'r' then some '\r'
  else if c = 'b' then some '\x08'
  else if c = 'f' then some '\x0c'
  else none

/-- Parse the body of a JSON string after the opening quote; returns the
decoded contents and the remaining input after the closing quote. -/
def parseStrBody : Nat → List Char → Option (List Char × List Char)
  | 0, _ => none
  | _ + 1, [] => none
  | n + 1, c :: rest =>
    if c = '"' then some ([], rest)
    else if c = '\\' then
      match rest with
      | [] => none
      | e :: rest2 =>
        match unescapeChar e with
        | some ch => (parseStrBody n rest2).map (fun p => (ch :: p.1, p.2))
        | none => none
    else (parseStrBody n rest).map (fun p => (c :: p.1, p.2))

/-- Parse a JSON integer (sign plus digits); rejects floats, mirroring the
model's integer-only restriction. -/
def parseIntAt (l : List Char) : Option (Int × List Char) :=
  let (neg, l1) : Bool × List Char :=
    match l with
    | '-' :: rest => (true, rest)
    | _ => (false, l)
  let ds := l1.takeWhile Char.isDigit
  let rest := l1.drop ds.length
  if ds = [] then none
  else
    match rest with
    | c :: _ => if c = '.' || c = 'e' || c = 'E' then none else
        some (if neg then -(digitsVal ds) else digitsVal ds, rest)
    | [] => some (if neg then -(digitsVal ds) else digitsVal ds, rest)
where
  digitsVal (ds : List Char) : Int :=
    ds.foldl (fun a c => a * 10 + (Int.ofNat (c.toNat - 48))) 0

mutual

/-- Recursive-descent JSON value parser (fuelled), modelling `json.loads`'s
grammar on the fragment described in the file header. -/
def parseVal : Nat → List Char → Option (Json × List Char)
  | 0, _ => none
  | n + 1, l =>
    let l1 := l.dropWhile isJsonWS
    match l1 with
    | [] => none
    | c :: rest =>
      if c = lbrace then
        let r2 := rest.dropWhile isJsonWS
        match r2 with
        | d :: r3 => if d = rbrace then some (Json.jobj [], r3) else
            (parseObjItems n r2).map (fun p => (Json.jobj p.1, p.2))
        | [] => none
      else if c = '[' then
        let r2 := rest.dropWhile isJsonWS
        match r2 with
        | d :: r3 => if d = ']' then some (Json.jarr [], r3) else
            (parseArrItems n r2).map (fun p => (Json.jarr p.1, p.2))
        | [] => none
      else if c = '"' then
        (parseStrBody (rest.length + 1) rest).map
          (fun p => (Json.jstr (String.mk p.1), p.2))
      else if c = 't' then
        match rest with
        | 'r' :: 'u' :: 'e' :: r => some (Json.jbool true, r)
        | _ => none
      else if c = 'f' then
        match rest with
        | 'a' :: 'l' :: 's' :: 'e' :: r => some (Json.jbool false, r)
        | _ => none
      else if c = 'n' then
        match rest with
        | 'u' :: 'l' :: 'l' :: r => some (Json.jnull, r)
        | _ => none
      else
        (parseIntAt l1).map (fun p => (Json.jnum p.1, p.2))

/-- Parse the items of a non-empty JSON array, positioned at the first
item; consumes the closing bracket. -/
def parseArrItems : Nat → List Char → Option (List Json × List Char)
  | 0, _ => none
  | n + 1, l =>
    match parseVal n l with
    | none => none
    | some (v, r) =>
      match r.dropWhile isJsonWS with
      | ',' :: r2 =>
        match parseArrItems n r2 with
        | some (vs, r3) => some (v :: vs, r3)
        | none => none
      | ']' :: r2 => some ([v], r2)
      | _ => none

/-- Parse the members of a non-empty JSON object, positioned at the first
key; consumes the closing brace. -/
def parseObjItems : Nat → List Char → Option (List (String × Json) × List Char)
  | 0, _ => none
  | n + 1, l =>
    match l.dropWhile isJsonWS with
    | '"' :: rest =>
      match parseStrBody (rest.length + 1) rest with
      | none => none
      | some (k, r) =>
        match r.dropWhile isJsonWS with
        | ':' :: r2 =>
          match parseVal n r2 with
          | none => none
          | some (v, r3) =>
            match r3.dropWhile isJsonWS with
            | ',' :: r5 =>
              match parseObjItems n r5 with
              | some (kvs, r6) => some ((String.mk k, v) :: kvs, r6)
              | none => none
            | d :: r5 =>
              if d = rbrace then some ([(String.mk k, v)], r5) else none
            | [] => none
        | _ => none
    | _ => none

end

/-- `json.loads` on a character list: parse one value, then require only
whitespace to remain; `none` models the call raising. -/
def jsonLoadsL (l : List Char) : Option Json :=
  match parseVal (2 * l.length + 4) l with
  | some (v, rest) => if (rest.dropWhile isJsonWS).isEmpty then some v else none
  | none => none

/-- `json.loads` on a string. -/
def jsonLoads (s : String) : Option Json :=
  jsonLoadsL s.toList

/-- Lazy-body scan for the regex `(?s)\[\s*{.*?}\s*\]`, positioned just after
the opening brace: finds the shortest body followed by a closing brace,
greedy whitespace, and a closing bracket; returns the matched text from the
body through that bracket. -/
def findBody : List Char → Option (List Char)
  | [] => none
  | c :: rest =>
    if c = rbrace then
      let ws := rest.takeWhile isPyWS
      match rest.drop ws.length with
      | ']' :: _ => some (c :: (ws ++ [']']))
      | _ => (findBody rest).map (fun m => c :: m)
    else (findBody rest).map (fun m => c :: m)

/-- Attempt of the regex `(?s)\[\s*{.*?}\s*\]` anchored at a position whose
first character is `[`; returns `group(0)`. -/
def arrMatchAt : List Char → Option (List Char)
  | '[' :: r =>
    let ws := r.takeWhile isPyWS
    match r.drop ws.length with
    | d :: r2 =>
      if d = lbrace then (findBody r2).map (fun m => '[' :: (ws ++ d :: m))
      else none
    | [] => none
  | _ => none

/-- `re.search(r'\[\s*{.*?}\s*\]', buffer, re.DOTALL)`: leftmost match. -/
def findArrayMatch : List Char → Option (List Char)
  | [] => none
  | c :: rest =>
    if c = '[' then
      match arrMatchAt (c :: rest) with
      | some m => some m
      | none => findArrayMatch rest
    else findArrayMatch rest

/-- Lazy-body scan for the regex `(?s)\{.*?}\s*$`, positioned just after the
opening brace: the first closing brace whose entire remainder is whitespace
ends the match, which extends to the end of the buffer. -/
def tailBody : List Char → Option (List Char)
  | [] => none
  | c :: rest =>
    if c = rbrace ∧ rest.all isPyWS then some (c :: rest)
    else (tailBody rest).map (fun m => c :: m)

/-- `re.search(r'\{.*?}\s*$', buffer, re.DOTALL)`: leftmost match. -/
def findTrailingObj : List Char → Option (List Char)
  | [] => none
  | c :: rest =>
    if c = lbrace then
      match (tailBody rest).map (fun m => c :: m) with
      | some m => some m
      | none => findTrailingObj rest
    else findTrailingObj rest

/-- Guard of the first extraction strategy:
`search_buffer.strip().startswith("[") and search_buffer.strip().endswith("]")`. -/
def strat1Guard (buffer : String) : Bool :=
  (pyStripL buffer.toList).head? == some '[' &&
    (pyStripL buffer.toList).getLast? == some ']'

/-- The structured-result extraction of `main.py` lines 322-339: the
whole-buffer parse, then the embedded-array regex, then the trailing-object
regex; any `json.loads` failure is caught by the enclosing `except`, which
sets the output to the empty list without trying further strategies.
Parsed records are used exactly as `json.loads` returned them. -/
def extractJson (buffer : String) : List Json :=
  let b := buffer.toList
  if strat1Guard buffer then
    match jsonLoadsL (pyStripL b) with
    | some (Json.jarr xs) => xs
    | _ => []
  else
    match findArrayMatch b with
    | some m =>
      match jsonLoadsL m with
      | some (Json.jarr xs) => xs
      | _ => []
    | none =>
      match findTrailingObj b with
      | some m =>
        match jsonLoadsL m with
        | some v => [v]
        | none => []
      | none => []

/-- A raw provider record: the JSON object one search hit of a provider
response, modelled as an association list with string field values (as the
Tavily and SerpAPI APIs return for the fields read here). -/
abbrev RawRec : Type := List (String × String)

/-- A normalized search-result record: a Python dict with string values. -/
abbrev Dict : Type := List (String × String)

/-- Python `r.get(k, d)` on a record. -/
def dget (r : List (String × String)) (k d : String) : String :=
  (r.lookup k).getD d

/-- The Tavily normalization of `raw_fetch_web_data`
(`main.py` lines 89-99): each raw result becomes a six-field dict. -/
def tavilyNorm (results : List RawRec) : List Dict :=
  results.map (fun r =>
    [("title", dget r "title" "Untitled"),
     ("description", dget r "content" "No description"),
     ("url", dget r "url" "No URL"),
     ("published_at", dget r "published_date" "No date"),
     ("source", "Tavily"),
     ("icon", "📝")])

/-- `raw_fetch_web_data` (`main.py` lines 66-102): `resp = none` models the
HTTP call (or status check or JSON decoding) raising, which the internal
`except` turns into `[]`; `some results` models a response whose `results`
field holds `results` (absing field defaults to `some []`). -/
def raw_fetch_web_data (resp : Option (List RawRec)) : List Dict :=
  match resp with
  | none => []
  | some results => tavilyNorm results

/-- The SerpAPI normalization of `raw_fetch_web_data_serp`
(`main.py` lines 126-136). -/
def serpNorm (results : List RawRec) : List Dict :=
  results.map (fun r =>
    [("title", dget r "title" "Untitled"),
     ("description", dget r "snippet" "No description"),
     ("url", dget r "link" "No URL"),
     ("published_at", dget r "date" "No date"),
     ("source", "SerpAPI"),
     ("icon", "🌐")])

/-- `raw_fetch_web_data_serp` (`main.py` lines 107-139). -/
def raw_fetch_web_data_serp (resp : Option (List RawRec)) : List Dict :=
  match resp with
  | none => []
  | some results => serpNorm results

/-- The concatenated candidate sequence of `raw_fetch_web_data_hybrid`
(`main.py` lines 148-160): Tavily results then SerpAPI results.  The
`try/except` around each provider call can never fire (each fetch catches
internally), so the calls are modelled directly. -/
def hybridCandidates (tv sp : Option (List RawRec)) : List Dict :=
  raw_fetch_web_data tv ++ raw_fetch_web_data_serp sp

/-- `r.get("url", "")`, the dedup key of the hybrid loop. -/
def urlOf (r : Dict) : String := dget r "url" ""

/-- The recency test of the hybrid loop (`main.py` line 170):
`current_year in published or published == "No date"`. -/
def recencyB (year : String) (r : Dict) : Bool :=
  containsStr (dget r "published_at" "No date") year
    || dget r "published_at" "No date" == "No date"

/-- The URL-validity-and-novelty test of the hybrid loop (`main.py`
line 168): `url and url not in seen and url != "No URL"`. -/
def urlOkB (seen : List String) (r : Dict) : Bool :=
  urlOf r != "" && !(seen.contains (urlOf r)) && urlOf r != "No URL"

/-- The dedup/recency loop of `raw_fetch_web_data_hybrid` (`main.py` lines
163-172).  Note the interleaving: a URL is added to `seen` only when the
candidate also passes the recency test. -/
def hybridLoop (year : String) : List String → List Dict → List Dict
  | _, [] => []
  | seen, r :: rs =>
    if urlOkB seen r then
      if recencyB year r then r :: hybridLoop year (urlOf r :: seen) rs
      else hybridLoop year seen rs
    else hybridLoop year seen rs

/-- The sort key of `main.py` line 173: `x["published_at"] != "No date"`
(every surviving candidate carries the field, so the total default is
never observed). -/
def hasDateKey (r : Dict) : Bool :=
  dget r "published_at" "" != "No date"

/-- Stable insertion step for a descending sort on a Boolean key: `x` is
placed before the first element whose key is not greater. -/
def insertDescB (key : Dict → Bool) (x : Dict) : List Dict → List Dict
  | [] => [x]
  | y :: ys =>
    if key x = false ∧ key y = true then y :: insertDescB key x ys
    else x :: y :: ys

/-- Stable descending sort on a Boolean key, modelling Python
`sorted(l, key=key, reverse=True)` (Python's sort is stable, also under
`reverse=True`). -/
def sortDescB (key : Dict → Bool) : List Dict → List Dict
  | [] => []
  | x :: xs => insertDescB key x (sortDescB key xs)

/-- `raw_fetch_web_data_hybrid` (`main.py` lines 144-176): candidates from
both providers, the dedup/recency loop, the stable date-first sort, and
truncation to five entries.  `year` is `str(datetime.now().year)`. -/
def raw_fetch_web_data_hybrid (tv sp : Option (List RawRec)) (year : String) :
    List Dict :=
  (sortDescB hasDateKey (hybridLoop year [] (hybridCandidates tv sp))).take 5

/-- Modelled from the spec's words, for comparison with the source (spec
§4.4 step 3): the standalone deduplication phase — keep the first
occurrence of each distinct non-empty non-sentinel URL, dropping later
duplicates and all candidates with empty or sentinel URLs. -/
def dedupByUrl : List String → List Dict → List Dict
  | _, [] => []
  | seen, r :: rs =>
    if urlOkB seen r then r :: dedupByUrl (urlOf r :: seen) rs
    else dedupByUrl seen rs

/-- Modelled from the spec's words (spec §4.4 step 4): the standalone
recency filter. -/
def recencyFilter (year : String) (rs : List Dict) : List Dict :=
  rs.filter (recencyB year)

/-- Modelled from the spec's words (claim C3): deduplication first, then the
recency filter applied to the already-deduplicated sequence. -/
def specTwoPhase (year : String) (rs : List Dict) : List Dict :=
  recencyFilter year (dedupByUrl [] rs)

/-- Modelled from the spec's words (spec §4.4 step 5): the stable partition
placing dated entries before "No date" entries, each group in original
order. -/
def specStablePartition (rs : List Dict) : List Dict :=
  rs.filter hasDateKey ++ rs.filter (fun r => !hasDateKey r)

/-- Embedding of a normalized string-valued dict as a JSON object, giving
`search_output` (which mixes `json.loads` output with provider dicts) the
uniform type `List Json`. -/
def dictJson (d : Dict) : Json :=
  Json.jobj (d.map (fun p => (p.1, Json.jstr p.2)))

/-- Whether `j[k]` succeeds in Python: `j` is a dict carrying key `k`
(otherwise `KeyError` / `TypeError`). -/
def jHasKey (j : Json) (k : String) : Bool :=
  match j with
  | Json.jobj kvs => (kvs.lookup k).isSome
  | _ => false

/-- Whether the `Sources Retrieved` print loop (`main.py` lines 356-358)
completes without raising: every element supports `result['title']` and
`result['source']` (its `result.get('url', 'No URL')` cannot raise). -/
def sourcesPrintOk (xs : List Json) : Bool :=
  xs.all (fun j => jHasKey j "title" && jHasKey j "source")

/-- The synthetic Search-stage fallback record (`main.py` lines 345-354). -/
def fallbackJson (q : String) : Json :=
  Json.jobj
    [("title", Json.jstr ("Fallback: Overview of " ++ q)),
     ("description", Json.jstr ("General overview of " ++ q ++ ".")),
     ("url", Json.jstr "https://example.com/fallback"),
     ("published_at", Json.jstr "No date"),
     ("source", Json.jstr "Fallback"),
     ("icon", Json.jstr "📚")]

/-- The Search-stage production (`main.py` lines 322-354): extract from the
streamed buffer; if empty, bypass to the hybrid aggregator on the original
query; if still empty, substitute the synthetic fallback record. -/
def searchProduction (q buffer : String) (tv sp : Option (List RawRec))
    (year : String) : List Json :=
  let so0 := extractJson buffer
  let so1 := if so0 = [] then (raw_fetch_web_data_hybrid tv sp year).map dictJson
             else so0
  if so1 = [] then [fallbackJson q] else so1

/-- The four-line fallback plan template (`main.py` lines 294-299; the
`except` block at lines 398-403 builds the identical string). -/
def planFallbackText (q : String) : String :=
  "1. Search for reputable tech news sources for " ++ q ++ ".\n" ++
  "2. Identify key developments in 2025.\n" ++
  "3. Validate with secondary sources like X posts.\n" ++
  "4. Prioritize information from 2025.\n"

/-- The Report-stage fallback template (`main.py` lines 377-387). -/
def reportFallbackText (q : String) : String :=
  "# Fallback Report on " ++ q ++ "\n\n" ++
  "## Introduction\n" ++
  "This report outlines available information on " ++ q ++
  ", but no valid search results were found.\n\n" ++
  "## Key Findings\n" ++
  "- Limited data available for " ++ q ++ " in 2025.\n" ++
  "## Analysis\n" ++
  "No credible sources were retrieved, possibly due to API limitations.\n" ++
  "## Conclusion\n" ++
  "Further research is needed to provide updates on " ++ q ++ ".\n"

/-- The report printed by the run-level `except` handler (`main.py` lines
407-417). -/
def errorReportText (q : String) : String :=
  "# Fallback Report on " ++ q ++ "\n\n" ++
  "## Introduction\n" ++
  "This report outlines available information on " ++ q ++
  ", but an error occurred.\n\n" ++
  "## Key Findings\n" ++
  "- No data retrieved for " ++ q ++ " due to processing errors.\n" ++
  "## Analysis\n" ++
  "Errors in API or agent execution prevented data collection.\n" ++
  "## Conclusion\n" ++
  "Retry with valid API keys or alternative sources for " ++ q ++ ".\n"

/-- The streaming accumulator of each stage (`main.py` lines 285-290 etc.):
deltas whose `strip()` is empty are dropped; surviving deltas are appended
raw, in arrival order. -/
def accum (ds : List String) : String :=
  ds.foldl (fun acc d => if pyStrip d = "" then acc else acc ++ d) ""

/-- The Plan-stage post-processing (`main.py` lines 292-301): substitute the
fallback template when the accumulated text is empty, then delete every
`[Plan Stream]` occurrence and strip. -/
def planPost (q p0 : String) : String :=
  pyStrip (removeSubStr "[Plan Stream]" (if p0 = "" then planFallbackText q else p0))

/-- The three per-stage model invocations of one run: `none` models
`Runner.run_streamed` (or the async iteration over its events) raising;
`some ds` models the received text deltas in arrival order. -/
structure ModelRuns where
  planRun : Option (List String)
  searchRun : Option (List String)
  reportRun : Option (List String)

/-- The observable outcome of one query iteration of `main` (`main.py`
lines 277-417): the plan/results/report triple the run commits, the
`executed_steps` set after the iteration, and an instrumentation count of
how many times each stage's model capability was invoked (the harness of
spec §8).  On the run-level `except` path the iteration commits no search
results, modelled as `results = []`; a skipped stage likewise contributes
the empty/default artifact (Python would retain a stale local from an
earlier iteration, which the skipped stage itself never produces). -/
structure RunOut where
  plan : String
  results : List Json
  report : String
  steps : List String
  planCalls : Nat
  searchCalls : Nat
  reportCalls : Nat
deriving DecidableEq, Repr

/-- The run-level `except` handler (`main.py` lines 395-417): prints the
basic plan and the error report; no search results exist. -/
def exceptOut (q : String) (steps : List String) (pc sc rc : Nat) : RunOut :=
  { plan := planFallbackText q, results := [], report := errorReportText q,
    steps := steps, planCalls := pc, searchCalls := sc, reportCalls := rc }

/-- The Report stage (`main.py` lines 364-391). -/
def runReportStage (q : String) (m : ModelRuns) (steps : List String)
    (plan : String) (results : List Json) (pc sc : Nat) : RunOut :=
  if steps.contains "report" then
    { plan := plan, results := results, report := "", steps := steps,
      planCalls := pc, searchCalls := sc, reportCalls := 0 }
  else
    match m.reportRun with
    | none => exceptOut q steps pc sc 1
    | some ds =>
      let r0 := accum ds
      let report := if r0 = "" then reportFallbackText q else r0
      { plan := plan, results := results, report := report,
        steps := steps ++ ["report"], planCalls := pc, searchCalls := sc,
        reportCalls := 1 }

/-- The Search stage (`main.py` lines 309-360): the guard, the model
invocation, extraction/bypass/fallback, and the `Sources Retrieved` print
loop, which runs before `"search"` is added and whose `KeyError` /
`TypeError` on a record without `title` or `source` jumps to the run-level
handler. -/
def runSearchStage (q : String) (m : ModelRuns) (tv sp : Option (List RawRec))
    (year : String) (steps : List String) (plan : String) (pc : Nat) : RunOut :=
  if steps.contains "search" then
    runReportStage q m steps plan [] pc 0
  else
    match m.searchRun with
    | none => exceptOut q steps pc 1 0
    | some ds =>
      let results := searchProduction q (accum ds) tv sp year
      if sourcesPrintOk results then
        runReportStage q m (steps ++ ["search"]) plan results pc 1
      else
        exceptOut q steps pc 1 0

/-- One query iteration of `main` (`main.py` lines 277-417): the Plan stage
followed by Search and Report.  `s0` is the `executed_steps` set on entry —
`main` creates it empty once, *outside* the query loop, so a later
iteration enters with the previous iteration's set. -/
def runQuery (q : String) (m : ModelRuns) (tv sp : Option (List RawRec))
    (year : String) (s0 : List String) : RunOut :=
  if s0.contains "plan" then
    runSearchStage q m tv sp year s0 "" 0
  else
    match m.planRun with
    | none => exceptOut q s0 1 0 0
    | some ds => runSearchStage q m tv sp year (s0 ++ ["plan"])
        (planPost q (accum ds)) 1

/-- `l.contains a` agrees with list membership (strings). -/
theorem containsList_iff (l : List String) (a : String) :
    l.contains a = true ↔ a ∈ l :=
  List.elem_iff

/-- C6 (counterexample): on the buffer
`noise [\x7b"title":"A","url":"http://x"\x7d] trailing` the extraction
returns the parsed record as-is; the remaining fields are *absent*, not set
to the data-model defaults — `description` (and likewise `source`) has no
value at all, refuting the claimed defaulting. -/
theorem C6_counterexample :
    extractJson "noise [\x7b\"title\":\"A\",\"url\":\"http://x\"\x7d] trailing" =
      [Json.jobj [("title", Json.jstr "A"), ("url", Json.jstr "http://x")]] ∧
    jGet (Json.jobj [("title", Json.jstr "A"), ("url", Json.jstr "http://x")])
      "description" = none ∧
    jGet (Json.jobj [("title", Json.jstr "A"), ("url", Json.jstr "http://x")])
      "source" = none ∧
    jGet (Json.jobj [("title", Json.jstr "A"), ("url", Json.jstr "http://x")])
      "description" ≠ some (Json.jstr "No description") := by
  refine ⟨by decide, rfl, rfl, by decide⟩

/-- C6 (amended): extraction of the claimed buffer yields exactly one record
holding only the two parsed fields `title = "A"` and `url = "http://x"`;
parsed records are used exactly as `json.loads` produced them, with no
normalization into SearchResult defaults, and a record lacking a `title`
field is still included — unchanged, without any title key. -/
theorem C6_main :
    extractJson "noise [\x7b\"title\":\"A\",\"url\":\"http://x\"\x7d] trailing" =
      [Json.jobj [("title", Json.jstr "A"), ("url", Json.jstr "http://x")]] ∧
    extractJson "[\x7b\"url\":\"u\"\x7d]" = [Json.jobj [("url", Json.jstr "u")]] := by
  refine ⟨by decide, by decide⟩

/-- C7 (counterexample): a malformed record inside the matched structure
(`oops`) makes `json.loads` fail on the whole structure, aborting extraction
— the well-formed record of the same structure is *not* returned; and a
record that is valid JSON but not a key-value mapping (`5`) is *not*
skipped — it stays in the output. -/
theorem C7_counterexample :
    extractJson "[\x7b\"title\": \"A\"\x7d, oops]" = [] ∧
    extractJson "[\x7b\"title\": \"A\"\x7d, oops]" ≠
      [Json.jobj [("title", Json.jstr "A")]] ∧
    extractJson "[\x7b\"title\": \"A\"\x7d, 5]" =
      [Json.jobj [("title", Json.jstr "A")], Json.jnum 5] ∧
    Json.jnum 5 ∈ extractJson "[\x7b\"title\": \"A\"\x7d, 5]" := by
  refine ⟨by decide, by decide, by decide, by decide⟩

/-- C7 (amended): when the whole-buffer strategy matches, a structure that
parses as a JSON array is returned exactly as parsed — records that are not
key-value mappings included, none skipped — while a structure on which the
parse fails aborts extraction entirely, yielding the empty sequence. -/
theorem C7_main :
    (∀ (buffer : String) (xs : List Json), strat1Guard buffer = true →
      jsonLoadsL (pyStripL buffer.toList) = some (Json.jarr xs) →
      extractJson buffer = xs) ∧
    (∀ buffer : String, strat1Guard buffer = true →
      jsonLoadsL (pyStripL buffer.toList) = none →
      extractJson buffer = []) := by
  constructor
  · intro buffer xs h1 h2
    simp only [String.toList] at h2
    simp [extractJson, h1, h2]
  · intro buffer h1 h2
    simp only [String.toList] at h2
    simp [extractJson, h1, h2]

/-- C7 (witness): the amended claim at the concrete buffer
`[\x7b"title": "A"\x7d, 5]`. -/
theorem C7_witness :
    extractJson "[\x7b\"title\": \"A\"\x7d, 5]" =
      [Json.jobj [("title", Json.jstr "A")], Json.jnum 5] :=
  C7_main.1 "[\x7b\"title\": \"A\"\x7d, 5]"
    [Json.jobj [("title", Json.jstr "A")], Json.jnum 5] (by decide) (by decide)

/-- C8 (counterexample): on `[oops] [\x7b"title": "A"\x7d]` the whole-buffer
strategy matches but its parse fails, and extraction returns the empty
sequence — it does *not* proceed to the embedded-array strategy, although
that strategy's regex matches a substring that parses successfully. -/
theorem C8_counterexample :
    extractJson "[oops] [\x7b\"title\": \"A\"\x7d]" = [] ∧
    findArrayMatch ("[oops] [\x7b\"title\": \"A\"\x7d]".toList) =
      some ("[\x7b\"title\": \"A\"\x7d]".toList) ∧
    jsonLoadsL ("[\x7b\"title\": \"A\"\x7d]".toList) =
      some (Json.jarr [Json.jobj [("title", Json.jstr "A")]]) := by
  refine ⟨by decide, by decide, by decide⟩

/-- C8 (amended): extraction is total — it returns a (possibly empty) list
for every buffer, and `extract("not json at all")` returns the empty
sequence — but a parse error inside a matched strategy is caught at the
cascade boundary and yields the empty sequence immediately, without
proceeding to the next strategy. -/
theorem C8_main :
    extractJson "not json at all" = [] ∧
    (∀ buffer : String, strat1Guard buffer = true →
      jsonLoadsL (pyStripL buffer.toList) = none →
      extractJson buffer = []) ∧
    (∀ (buffer : String) (m : List Char), strat1Guard buffer = false →
      findArrayMatch buffer.toList = some m →
      jsonLoadsL m = none →
      extractJson buffer = []) := by
  refine ⟨by decide, ?_, ?_⟩
  · intro buffer h1 h2
    simp only [String.toList] at h2
    simp [extractJson, h1, h2]
  · intro buffer m h1 h2 h3
    simp only [String.toList] at h2
    simp [extractJson, h1, h2, h3]

/-- C8 (witness): the amended claim at the concrete buffer
`aa [\x7boops\x7d]` — the embedded-array strategy matches, its parse fails,
extraction yields the empty sequence. -/
theorem C8_witness :
    extractJson "aa [\x7boops\x7d]" = [] :=
  C8_main.2.2 "aa [\x7boops\x7d]" ("[\x7boops\x7d]".toList)
    (by decide) (by decide) (by decide)

/-- Unfolding of one step of the hybrid dedup/recency loop. -/
theorem hybridLoop_cons (year : String) (seen : List String) (a : Dict)
    (rs : List Dict) :
    hybridLoop year seen (a :: rs) =
      if urlOkB seen a then
        if recencyB year a then a :: hybridLoop year (urlOf a :: seen) rs
        else hybridLoop year seen rs
      else hybridLoop year seen rs := rfl

/-- Unfolding of one step of the spec-modelled deduplication. -/
theorem dedupByUrl_cons (seen : List String) (a : Dict) (rs : List Dict) :
    dedupByUrl seen (a :: rs) =
      if urlOkB seen a then a :: dedupByUrl (urlOf a :: seen) rs
      else dedupByUrl seen rs := rfl

/-- The URL test of the hybrid loop, decomposed. -/
theorem urlOkB_iff (seen : List String) (r : Dict) :
    urlOkB seen r = true ↔
      urlOf r ≠ "" ∧ urlOf r ∉ seen ∧ urlOf r ≠ "No URL" := by
  simp [urlOkB, List.contains, List.elem_iff, bne_iff_ne, and_assoc]

/-- Every record kept by the hybrid loop comes from the candidates, passes
the recency test, has a non-empty non-sentinel URL not in the incoming seen
set, and the kept URLs are pairwise distinct. -/
theorem hybridLoop_spec (year : String) : ∀ (rs : List Dict) (seen : List String),
    (∀ r ∈ hybridLoop year seen rs,
      r ∈ rs ∧ recencyB year r = true ∧ urlOf r ≠ "" ∧ urlOf r ≠ "No URL" ∧
        urlOf r ∉ seen) ∧
    ((hybridLoop year seen rs).map urlOf).Nodup := by
  intro rs
  induction rs with
  | nil =>
    intro seen
    exact ⟨fun r h => absurd h (List.not_mem_nil r), List.nodup_nil⟩
  | cons a rs ih =>
    intro seen
    rw [hybridLoop_cons]
    by_cases h1 : urlOkB seen a = true
    · rw [if_pos h1]
      by_cases h2 : recencyB year a = true
      · rw [if_pos h2]
        obtain ⟨hne, hnotin, hnourl⟩ := (urlOkB_iff seen a).mp h1
        obtain ⟨ihm, ihnd⟩ := ih (urlOf a :: seen)
        constructor
        · intro r hr
          rcases List.mem_cons.mp hr with rfl | hm
          · exact ⟨List.mem_cons_self _ _, h2, hne, hnourl, hnotin⟩
          · obtain ⟨hin, hrec, hu1, hu2, hu3⟩ := ihm r hm
            exact ⟨List.mem_cons_of_mem _ hin, hrec, hu1, hu2,
              fun hseen => hu3 (List.mem_cons_of_mem _ hseen)⟩
        · rw [List.map_cons]
          refine List.nodup_cons.mpr ⟨?_, ihnd⟩
          intro hmem
          obtain ⟨r, hr, he⟩ := List.mem_map.mp hmem
          obtain ⟨_, _, _, _, hu3⟩ := ihm r hr
          exact hu3 (by rw [he]; exact List.mem_cons_self _ _)
      · rw [if_neg h2]
        obtain ⟨ihm, ihnd⟩ := ih seen
        refine ⟨fun r hr => ?_, ihnd⟩
        obtain ⟨hin, h⟩ := ihm r hr
        exact ⟨List.mem_cons_of_mem _ hin, h⟩
    · rw [if_neg h1]
      obtain ⟨ihm, ihnd⟩ := ih seen
      refine ⟨fun r hr => ?_, ihnd⟩
      obtain ⟨hin, h⟩ := ihm r hr
      exact ⟨List.mem_cons_of_mem _ hin, h⟩

/-- Unfolding of one step of the stable descending insertion. -/
theorem insertDescB_cons (key : Dict → Bool) (x y : Dict) (ys : List Dict) :
    insertDescB key x (y :: ys) =
      if key x = false ∧ key y = true then y :: insertDescB key x ys
      else x :: y :: ys := rfl

/-- Inserting into a list preserves its elements up to permutation. -/
theorem insertDescB_perm (key : Dict → Bool) (x : Dict) :
    ∀ l : List Dict, (insertDescB key x l).Perm (x :: l) := by
  intro l
  induction l with
  | nil => exact List.Perm.refl [x]
  | cons y ys ih =>
    rw [insertDescB_cons]
    by_cases h : key x = false ∧ key y = true
    · rw [if_pos h]
      exact (ih.cons y).trans (List.Perm.swap x y ys)
    · rw [if_neg h]

/-- The stable descending sort is a permutation. -/
theorem sortDescB_perm (key : Dict → Bool) :
    ∀ l : List Dict, (sortDescB key l).Perm l := by
  intro l
  induction l with
  | nil => exact List.Perm.refl []
  | cons x xs ih =>
    exact (insertDescB_perm key x (sortDescB key xs)).trans (ih.cons x)

/-- Inserting into a true-block/false-block partition lands after the true
block when the key is false, before everything when the key is true. -/
theorem insertDescB_split (key : Dict → Bool) (x : Dict) :
    ∀ (A B : List Dict), (∀ a ∈ A, key a = true) → (∀ b ∈ B, key b = false) →
      insertDescB key x (A ++ B) =
        if key x = true then x :: (A ++ B) else A ++ x :: B := by
  intro A
  induction A with
  | nil =>
    intro B _ hB
    simp only [List.nil_append]
    cases B with
    | nil => cases hx : key x <;> simp [insertDescB, hx]
    | cons b B' =>
      have hb := hB b (List.mem_cons_self b B')
      rw [insertDescB_cons]
      cases hx : key x <;> simp [hb, hx]
  | cons a A' ih =>
    intro B hA hB
    have ha := hA a (List.mem_cons_self a A')
    rw [List.cons_append, insertDescB_cons]
    cases hx : key x with
    | true => simp [ha, hx]
    | false =>
      rw [if_pos ⟨rfl, ha⟩, ih B (fun c hc => hA c (List.mem_cons_of_mem a hc)) hB]
      simp [hx]

/-- Python's stable `sorted(..., key=<boolean>, reverse=True)` equals the
stable partition: key-true entries first, key-false entries after, each
block in original order. -/
theorem sortDescB_eq_partition (key : Dict → Bool) :
    ∀ l : List Dict,
      sortDescB key l = l.filter key ++ l.filter (fun r => !key r) := by
  intro l
  induction l with
  | nil => rfl
  | cons x xs ih =>
    have hstep : sortDescB key (x :: xs) = insertDescB key x (sortDescB key xs) := rfl
    rw [hstep, ih, insertDescB_split key x (xs.filter key)
      (xs.filter (fun r => !key r))
      (fun a ha => (List.mem_filter.mp ha).2)
      (fun b hb => by simpa using (List.mem_filter.mp hb).2)]
    cases hx : key x with
    | true => simp [List.filter_cons, hx]
    | false => simp [List.filter_cons, hx]

/-- The interleaved dedup/recency loop of the source equals the recency
filter applied FIRST, followed by URL deduplication — for every seen set. -/
theorem hybridLoop_eq_filter_dedup (year : String) :
    ∀ (rs : List Dict) (seen : List String),
      hybridLoop year seen rs = dedupByUrl seen (recencyFilter year rs) := by
  intro rs
  induction rs with
  | nil => intro seen; rfl
  | cons a rs ih =>
    intro seen
    rw [hybridLoop_cons]
    by_cases h2 : recencyB year a = true
    · have hf : recencyFilter year (a :: rs) = a :: recencyFilter year rs := by
        simp [recencyFilter, List.filter_cons, h2]
      rw [hf, dedupByUrl_cons]
      by_cases h1 : urlOkB seen a = true
      · rw [if_pos h1, if_pos h1, if_pos h2, ih]
      · rw [if_neg h1, if_neg h1, ih]
    · have hf : recencyFilter year (a :: rs) = recencyFilter year rs := by
        simp [recencyFilter, List.filter_cons, h2]
      rw [hf]
      by_cases h1 : urlOkB seen a = true
      · rw [if_pos h1, if_neg h2, ih]
      · rw [if_neg h1, ih]

/-- C3 (counterexample): with current year "2026", a Tavily candidate
(url `u`, stale date) followed by a SerpAPI candidate (same url `u`, recent
date), the source's loop keeps the recent duplicate — the claimed
dedup-then-recency phasing would keep the stale first occurrence in the
dedup phase and then drop it, returning nothing. -/
theorem C3_counterexample :
    hybridLoop "2026" []
      (hybridCandidates (some [[("url", "u"), ("published_date", "2020-01-01")]])
        (some [[("link", "u"), ("date", "2026-05-05")]])) ≠
    specTwoPhase "2026"
      (hybridCandidates (some [[("url", "u"), ("published_date", "2020-01-01")]])
        (some [[("link", "u"), ("date", "2026-05-05")]])) := by
  decide

/-- C3 (amended): the hybrid aggregator computes its surviving candidates in
one interleaved pass over the concatenated candidate sequence — a URL is
recorded as seen only when its candidate also passes the recency test —
which is equivalent to applying the recency filter first and then
deduplicating the already-filtered sequence (the reverse of the claimed
phase order). -/
theorem C3_main : ∀ (year : String) (tv sp : Option (List RawRec)),
    hybridLoop year [] (hybridCandidates tv sp) =
      dedupByUrl [] (recencyFilter year (hybridCandidates tv sp)) :=
  fun year tv sp => hybridLoop_eq_filter_dedup year (hybridCandidates tv sp) []

/-- C4: for all provider result sequences and any current year, every
element of the hybrid aggregator's output has a non-empty, non-sentinel
URL; its `published_at` equals "No date" or contains the current year as a
substring; and no two output elements share the same URL. -/
theorem C4_main : ∀ (tv sp : Option (List RawRec)) (year : String),
    (∀ r ∈ raw_fetch_web_data_hybrid tv sp year,
      urlOf r ≠ "" ∧ urlOf r ≠ "No URL" ∧
        (dget r "published_at" "No date" = "No date" ∨
          containsStr (dget r "published_at" "No date") year = true)) ∧
    ((raw_fetch_web_data_hybrid tv sp year).map urlOf).Nodup := by
  intro tv sp year
  have hspec := hybridLoop_spec year (hybridCandidates tv sp) []
  have hperm : (sortDescB hasDateKey
      (hybridLoop year [] (hybridCandidates tv sp))).Perm
      (hybridLoop year [] (hybridCandidates tv sp)) := sortDescB_perm _ _
  constructor
  · intro r hr
    have hr1 : r ∈ sortDescB hasDateKey
        (hybridLoop year [] (hybridCandidates tv sp)) :=
      List.mem_of_mem_take hr
    have hr2 := hperm.mem_iff.mp hr1
    obtain ⟨_, hrec, hu1, hu2, _⟩ := hspec.1 r hr2
    refine ⟨hu1, hu2, ?_⟩
    simp only [recencyB, Bool.or_eq_true, beq_iff_eq] at hrec
    tauto
  · have h1 : ((sortDescB hasDateKey
        (hybridLoop year [] (hybridCandidates tv sp))).map urlOf).Nodup :=
      ((hperm.map urlOf).nodup_iff).mpr hspec.2
    have h2 : (raw_fetch_web_data_hybrid tv sp year).map urlOf =
        ((sortDescB hasDateKey
          (hybridLoop year [] (hybridCandidates tv sp))).map urlOf).take 5 :=
      List.map_take urlOf _ 5
    rw [h2]
    exact List.Nodup.sublist (List.take_sublist 5 _) h1

/-- C4 (witness): the invariants at a concrete provider response. -/
theorem C4_witness :
    urlOf [("title", "Untitled"), ("description", "No description"),
      ("url", "u1"), ("published_at", "2025-01-01"), ("source", "Tavily"),
      ("icon", "📝")] ≠ "" ∧
    urlOf [("title", "Untitled"), ("description", "No description"),
      ("url", "u1"), ("published_at", "2025-01-01"), ("source", "Tavily"),
      ("icon", "📝")] ≠ "No URL" ∧
    (dget [("title", "Untitled"), ("description", "No description"),
      ("url", "u1"), ("published_at", "2025-01-01"), ("source", "Tavily"),
      ("icon", "📝")] "published_at" "No date" = "No date" ∨
      containsStr (dget [("title", "Untitled"), ("description", "No description"),
        ("url", "u1"), ("published_at", "2025-01-01"), ("source", "Tavily"),
        ("icon", "📝")] "published_at" "No date") "2025" = true) :=
  (C4_main (some [[("url", "u1"), ("published_date", "2025-01-01")]]) none
    "2025").1 _ (by decide)

/-- C5: the hybrid aggregator's output is exactly the stable has-date /
no-date partition of its surviving candidates (dated entries first, each
group in original order, no ordering on actual date values) truncated to
the first five entries; hence its length is at most five. -/
theorem C5_main : ∀ (tv sp : Option (List RawRec)) (year : String),
    raw_fetch_web_data_hybrid tv sp year =
      (specStablePartition (hybridLoop year [] (hybridCandidates tv sp))).take 5 ∧
    (raw_fetch_web_data_hybrid tv sp year).length ≤ 5 := by
  intro tv sp year
  constructor
  · exact congrArg (List.take 5) (sortDescB_eq_partition hasDateKey _)
  · rw [raw_fetch_web_data_hybrid, List.length_take]
    exact inf_le_left

/-- Lookup commutes with the string-to-JSON field embedding. -/
theorem lookup_map_jstr (r : Dict) (k : String) :
    (r.map (fun p => (p.1, Json.jstr p.2))).lookup k =
      (r.lookup k).map Json.jstr := by
  induction r with
  | nil => rfl
  | cons p r ih =>
    obtain ⟨a, b⟩ := p
    simp only [List.map_cons, List.lookup]
    cases h : k == a <;> simp [ih]

/-- Subscripting a converted dict succeeds exactly when the dict has the key. -/
theorem jHasKey_dictJson (r : Dict) (k : String) :
    jHasKey (dictJson r) k = (r.lookup k).isSome := by
  simp [jHasKey, dictJson, lookup_map_jstr]

/-- C10: every element output by the Tavily fetch, the SerpAPI fetch, and
the hybrid aggregator is a mapping carrying all six keys `title`,
`description`, `url`, `published_at`, `source`, `icon`, with `source` fixed
to the originating provider; consequently the orchestrator's unconditional
`result['title']` / `result['source']` accesses on aggregator output cannot
fail. -/
theorem C10_main :
    (∀ (resp : Option (List RawRec))(r : Dict), r ∈ raw_fetch_web_data resp →
      (r.lookup "title").isSome = true ∧ (r.lookup "description").isSome = true ∧
      (r.lookup "url").isSome = true ∧ (r.lookup "published_at").isSome = true ∧
      (r.lookup "icon").isSome = true ∧ r.lookup "source" = some "Tavily") ∧
    (∀ (resp : Option (List RawRec)) (r : Dict),
      r ∈ raw_fetch_web_data_serp resp →
      (r.lookup "title").isSome = true ∧ (r.lookup "description").isSome = true ∧
      (r.lookup "url").isSome = true ∧ (r.lookup "published_at").isSome = true ∧
      (r.lookup "icon").isSome = true ∧ r.lookup "source" = some "SerpAPI") ∧
    (∀ (tv sp : Option (List RawRec)) (year : String) (r : Dict),
      r ∈ raw_fetch_web_data_hybrid tv sp year →
      (r.lookup "title").isSome = true ∧ (r.lookup "description").isSome = true ∧
      (r.lookup "url").isSome = true ∧ (r.lookup "published_at").isSome = true ∧
      (r.lookup "icon").isSome = true ∧
      (r.lookup "source" = some "Tavily" ∨ r.lookup "source" = some "SerpAPI")) ∧
    (∀ (tv sp : Option (List RawRec)) (year : String),
      sourcesPrintOk ((raw_fetch_web_data_hybrid tv sp year).map dictJson) = true) := by
  have htav : ∀ (resp : Option (List RawRec)) (r : Dict),
      r ∈ raw_fetch_web_data resp →
      (r.lookup "title").isSome = true ∧ (r.lookup "description").isSome = true ∧
      (r.lookup "url").isSome = true ∧ (r.lookup "published_at").isSome = true ∧
      (r.lookup "icon").isSome = true ∧ r.lookup "source" = some "Tavily" := by
    intro resp r hr
    match resp with
    | none => exact absurd hr (List.not_mem_nil r)
    | some results =>
      obtain ⟨a, _, rfl⟩ := List.mem_map.mp hr
      exact ⟨rfl, rfl, rfl, rfl, rfl, rfl⟩
  have hserp : ∀ (resp : Option (List RawRec)) (r : Dict),
      r ∈ raw_fetch_web_data_serp resp →
      (r.lookup "title").isSome = true ∧ (r.lookup "description").isSome = true ∧
      (r.lookup "url").isSome = true ∧ (r.lookup "published_at").isSome = true ∧
      (r.lookup "icon").isSome = true ∧ r.lookup "source" = some "SerpAPI" := by
    intro resp r hr
    match resp with
    | none => exact absurd hr (List.not_mem_nil r)
    | some results =>
      obtain ⟨a, _, rfl⟩ := List.mem_map.mp hr
      exact ⟨rfl, rfl, rfl, rfl, rfl, rfl⟩
  have hhyb : ∀ (tv sp : Option (List RawRec)) (year : String) (r : Dict),
      r ∈ raw_fetch_web_data_hybrid tv sp year →
      (r.lookup "title").isSome = true ∧ (r.lookup "description").isSome = true ∧
      (r.lookup "url").isSome = true ∧ (r.lookup "published_at").isSome = true ∧
      (r.lookup "icon").isSome = true ∧
      (r.lookup "source" = some "Tavily" ∨ r.lookup "source" = some "SerpAPI") := by
    intro tv sp year r hr
    have hr1 : r ∈ sortDescB hasDateKey
        (hybridLoop year [] (hybridCandidates tv sp)) :=
      List.mem_of_mem_take hr
    have hr2 := (sortDescB_perm hasDateKey _).mem_iff.mp hr1
    have hr3 : r ∈ hybridCandidates tv sp :=
      ((hybridLoop_spec year (hybridCandidates tv sp) []).1 r hr2).1
    rcases List.mem_append.mp hr3 with h | h
    · obtain ⟨h1, h2, h3, h4, h5, h6⟩ := htav tv r h
      exact ⟨h1, h2, h3, h4, h5, Or.inl h6⟩
    · obtain ⟨h1, h2, h3, h4, h5, h6⟩ := hserp sp r h
      exact ⟨h1, h2, h3, h4, h5, Or.inr h6⟩
  refine ⟨htav, hserp, hhyb, ?_⟩
  intro tv sp year
  refine List.all_eq_true.mpr ?_
  intro j hj
  obtain ⟨r, hr, rfl⟩ := List.mem_map.mp hj
  obtain ⟨h1, _, _, _, _, h6⟩ := hhyb tv sp year r hr
  have hs : (r.lookup "source").isSome = true := by
    rcases h6 with h | h <;> simp [h]
  simp [jHasKey_dictJson, h1, hs]

/-- C10 (witness): the six keys and provider source at a concrete Tavily
response consisting of one empty raw record. -/
theorem C10_witness :
    (([("title", "Untitled"), ("description", "No description"),
      ("url", "No URL"), ("published_at", "No date"), ("source", "Tavily"),
      ("icon", "📝")] : Dict).lookup "title").isSome = true ∧
    (([("title", "Untitled"), ("description", "No description"),
      ("url", "No URL"), ("published_at", "No date"), ("source", "Tavily"),
      ("icon", "📝")] : Dict).lookup "description").isSome = true ∧
    (([("title", "Untitled"), ("description", "No description"),
      ("url", "No URL"), ("published_at", "No date"), ("source", "Tavily"),
      ("icon", "📝")] : Dict).lookup "url").isSome = true ∧
    (([("title", "Untitled"), ("description", "No description"),
      ("url", "No URL"), ("published_at", "No date"), ("source", "Tavily"),
      ("icon", "📝")] : Dict).lookup "published_at").isSome = true ∧
    (([("title", "Untitled"), ("description", "No description"),
      ("url", "No URL"), ("published_at", "No date"), ("source", "Tavily"),
      ("icon", "📝")] : Dict).lookup "icon").isSome = true ∧
    ([("title", "Untitled"), ("description", "No description"),
      ("url", "No URL"), ("published_at", "No date"), ("source", "Tavily"),
      ("icon", "📝")] : Dict).lookup "source" = some "Tavily" :=
  C10_main.1 (some [[]]) _ (by decide)

/-- Appending strings concatenates their character data. -/
theorem data_append (s t : String) : (s ++ t).data = s.data ++ t.data := by
  cases s; cases t; rfl

/-- A string with a non-empty left factor is non-empty. -/
theorem data_ne_nil_append (s t : String) (h : s.data ≠ []) :
    (s ++ t).data ≠ [] := by
  rw [data_append]
  intro e
  exact h (List.append_eq_nil.mp e).1

/-- A string with non-empty data is not the empty string. -/
theorem ne_empty_of_data (s : String) (h : s.data ≠ []) : s ≠ "" := by
  intro e
  rw [e] at h
  exact h rfl

/-- The run-level error report is never the empty string. -/
theorem errorReportText_ne_empty (q : String) : errorReportText q ≠ "" := by
  apply ne_empty_of_data
  unfold errorReportText
  repeat apply data_ne_nil_append
  decide

/-- The Report-stage fallback is never the empty string. -/
theorem reportFallbackText_ne_empty (q : String) : reportFallbackText q ≠ "" := by
  apply ne_empty_of_data
  unfold reportFallbackText
  repeat apply data_ne_nil_append
  decide

/-- The Search-stage production never returns an empty sequence: the final
fallback substitutes a one-element list. -/
theorem searchProduction_ne_nil (q b : String) (tv sp : Option (List RawRec))
    (year : String) : searchProduction q b tv sp year ≠ [] := by
  by_cases h0 : extractJson b = []
  · by_cases h1 : raw_fetch_web_data_hybrid tv sp year = []
    · simp [searchProduction, h0, h1]
    · simp [searchProduction, h0, h1]
  · simp [searchProduction, h0]

/-- C9: when extraction yields nothing and the direct hybrid bypass on the
original query is also empty, the Search fallback is exactly a one-element
sequence holding a synthetic record whose source is "Fallback", whose
description embeds the query, whose date field is the sentinel "No date",
and whose url field is the fixed placeholder fallback URL. -/
theorem C9_main : ∀ (q buffer : String) (tv sp : Option (List RawRec))
    (year : String),
    extractJson buffer = [] →
    raw_fetch_web_data_hybrid tv sp year = [] →
    searchProduction q buffer tv sp year = [fallbackJson q] ∧
    jGet (fallbackJson q) "source" = some (Json.jstr "Fallback") ∧
    jGet (fallbackJson q) "published_at" = some (Json.jstr "No date") ∧
    jGet (fallbackJson q) "url" =
      some (Json.jstr "https://example.com/fallback") ∧
    jGet (fallbackJson q) "description" =
      some (Json.jstr ("General overview of " ++ q ++ ".")) := by
  intro q buffer tv sp year h1 h2
  refine ⟨?_, rfl, rfl, rfl, rfl⟩
  simp [searchProduction, h1, h2]

/-- C9 (witness): the fallback at a concrete query with failing providers
and a non-JSON search buffer. -/
theorem C9_witness :
    searchProduction "q" "x" none none "2025" = [fallbackJson "q"] :=
  (C9_main "q" "x" none none "2025" (by decide) rfl).1

/-- A `contains` test that fails means non-membership. -/
theorem contains_false_iff (l : List String) (a : String) :
    l.contains a = false ↔ a ∉ l := by
  constructor
  · intro h hm
    rw [(containsList_iff l a).mpr hm] at h
    cases h
  · intro h
    cases hc : l.contains a
    · rfl
    · exact absurd ((containsList_iff l a).mp hc) h

/-- Count and skip behavior of the Report stage: the earlier stages' counts
pass through; the report capability is invoked exactly once unless the
stage is skipped, in which case it is not invoked at all. -/
theorem runReportStage_counts (q : String) (m : ModelRuns) (steps : List String)
    (plan : String) (results : List Json) (pc sc : Nat) :
    (runReportStage q m steps plan results pc sc).planCalls = pc ∧
    (runReportStage q m steps plan results pc sc).searchCalls = sc ∧
    (runReportStage q m steps plan results pc sc).reportCalls ≤ 1 ∧
    ("report" ∈ steps →
      (runReportStage q m steps plan results pc sc).reportCalls = 0) ∧
    ("report" ∉ steps →
      (runReportStage q m steps plan results pc sc).reportCalls = 1) := by
  by_cases hm : "report" ∈ steps
  · refine ⟨by simp [runReportStage, hm], by simp [runReportStage, hm],
      by simp [runReportStage, hm], fun _ => by simp [runReportStage, hm],
      fun hn => absurd hm hn⟩
  · cases hr : m.reportRun with
    | none =>
      refine ⟨by simp [runReportStage, hm, hr, exceptOut],
        by simp [runReportStage, hm, hr, exceptOut],
        by simp [runReportStage, hm, hr, exceptOut],
        fun hmem => absurd hmem hm,
        fun _ => by simp [runReportStage, hm, hr, exceptOut]⟩
    | some ds =>
      refine ⟨by simp [runReportStage, hm, hr],
        by simp [runReportStage, hm, hr],
        by simp [runReportStage, hm, hr],
        fun hmem => absurd hmem hm,
        fun _ => by simp [runReportStage, hm, hr]⟩

/-- Count and skip behavior of the Search stage. -/
theorem runSearchStage_counts (q : String) (m : ModelRuns)
    (tv sp : Option (List RawRec)) (year : String) (steps : List String)
    (plan : String) (pc : Nat) :
    (runSearchStage q m tv sp year steps plan pc).planCalls = pc ∧
    (runSearchStage q m tv sp year steps plan pc).searchCalls ≤ 1 ∧
    (runSearchStage q m tv sp year steps plan pc).reportCalls ≤ 1 ∧
    ("search" ∈ steps →
      (runSearchStage q m tv sp year steps plan pc).searchCalls = 0) ∧
    ("report" ∈ steps →
      (runSearchStage q m tv sp year steps plan pc).reportCalls = 0) := by
  by_cases hm : "search" ∈ steps
  · have hrep := runReportStage_counts q m steps plan [] pc 0
    have he : runSearchStage q m tv sp year steps plan pc =
        runReportStage q m steps plan [] pc 0 := by
      simp [runSearchStage, hm]
    rw [he]
    refine ⟨hrep.1, ?_, hrep.2.2.1, fun _ => hrep.2.1,
      fun hmem => hrep.2.2.2.1 hmem⟩
    rw [hrep.2.1]
    exact Nat.zero_le 1
  · cases hs : m.searchRun with
    | none =>
      refine ⟨by simp [runSearchStage, hm, hs, exceptOut],
        by simp [runSearchStage, hm, hs, exceptOut],
        by simp [runSearchStage, hm, hs, exceptOut],
        fun hmem => absurd hmem hm,
        fun _ => by simp [runSearchStage, hm, hs, exceptOut]⟩
    | some ds =>
      by_cases hpr : sourcesPrintOk (searchProduction q (accum ds) tv sp year) = true
      · have hrep := runReportStage_counts q m (steps ++ ["search"]) plan
          (searchProduction q (accum ds) tv sp year) pc 1
        have he : runSearchStage q m tv sp year steps plan pc =
            runReportStage q m (steps ++ ["search"]) plan
              (searchProduction q (accum ds) tv sp year) pc 1 := by
          simp [runSearchStage, hm, hs, hpr]
        rw [he]
        refine ⟨hrep.1, ?_, hrep.2.2.1, fun hmem => absurd hmem hm,
          fun hmem => hrep.2.2.2.1 (List.mem_append_left _ hmem)⟩
        rw [hrep.2.1]
      · refine ⟨by simp [runSearchStage, hm, hs, hpr, exceptOut],
          by simp [runSearchStage, hm, hs, hpr, exceptOut],
          by simp [runSearchStage, hm, hs, hpr, exceptOut],
          fun hmem => absurd hmem hm,
          fun _ => by simp [runSearchStage, hm, hs, hpr, exceptOut]⟩

/-- C1 (counterexample): when the Plan stage's model invocation raises, the
exception is caught by the run-level handler, which skips the remaining
stages — the run ends with an *empty* results list, refuting "results
contains at least one SearchResult even when every model invocation
raises"; and a plan stream consisting solely of the progress marker leaves
an *empty* plan after marker removal, refuting "plan is a non-empty
string". -/
theorem C1_counterexample :
    (runQuery "q" ⟨none, none, none⟩ none none "2025" []).results = [] ∧
    (runQuery "q" ⟨some ["[Plan Stream]"], some ["x"], some ["y"]⟩
      none none "2025" []).plan = "" := by
  refine ⟨by decide, by decide⟩

/-- C1 (amended): every run terminates with a complete triple whose report
is non-empty; when the Plan-stage model invocation raises, the exception is
caught at the *run* boundary, not the stage boundary — the run substitutes
the fixed basic plan and error report and commits no search results; when
no model invocation raises and every printed record carries `title` and
`source`, the run commits the Search stage's production (at least one
element) and the accumulated, marker-stripped plan (which can be empty if
the stream was only progress markers). -/
theorem C1_main : ∀ (q : String) (m : ModelRuns) (tv sp : Option (List RawRec))
    (year : String),
    (runQuery q m tv sp year []).report ≠ "" ∧
    (m.planRun = none → runQuery q m tv sp year [] = exceptOut q [] 1 0 0) ∧
    (∀ pd sd rd, m.planRun = some pd → m.searchRun = some sd →
      m.reportRun = some rd →
      sourcesPrintOk (searchProduction q (accum sd) tv sp year) = true →
      (runQuery q m tv sp year []).results =
        searchProduction q (accum sd) tv sp year ∧
      (runQuery q m tv sp year []).results ≠ [] ∧
      (runQuery q m tv sp year []).plan = planPost q (accum pd)) := by
  intro q m tv sp year
  refine ⟨?_, ?_, ?_⟩
  · cases hp : m.planRun with
    | none =>
      have he : runQuery q m tv sp year [] = exceptOut q [] 1 0 0 := by
        simp [runQuery, hp]
      rw [he]
      exact errorReportText_ne_empty q
    | some pd =>
      have he : runQuery q m tv sp year [] =
          runSearchStage q m tv sp year ["plan"] (planPost q (accum pd)) 1 := by
        simp [runQuery, hp]
      rw [he]
      cases hsr : m.searchRun with
      | none =>
        have he2 : runSearchStage q m tv sp year ["plan"]
            (planPost q (accum pd)) 1 = exceptOut q ["plan"] 1 1 0 := by
          simp [runSearchStage, hsr]
        rw [he2]
        exact errorReportText_ne_empty q
      | some sd =>
        by_cases hpr : sourcesPrintOk
            (searchProduction q (accum sd) tv sp year) = true
        · have he2 : runSearchStage q m tv sp year ["plan"]
              (planPost q (accum pd)) 1 =
              runReportStage q m ["plan", "search"] (planPost q (accum pd))
                (searchProduction q (accum sd) tv sp year) 1 1 := by
            simp [runSearchStage, hsr, hpr]
          rw [he2]
          cases hrr : m.reportRun with
          | none =>
            have he3 : runReportStage q m ["plan", "search"]
                (planPost q (accum pd))
                (searchProduction q (accum sd) tv sp year) 1 1 =
                exceptOut q ["plan", "search"] 1 1 1 := by
              simp [runReportStage, hrr]
            rw [he3]
            exact errorReportText_ne_empty q
          | some rd =>
            by_cases hr : accum rd = ""
            · have he3 : (runReportStage q m ["plan", "search"]
                  (planPost q (accum pd))
                  (searchProduction q (accum sd) tv sp year) 1 1).report =
                  reportFallbackText q := by
                simp [runReportStage, hrr, hr]
              rw [he3]
              exact reportFallbackText_ne_empty q
            · have he3 : (runReportStage q m ["plan", "search"]
                  (planPost q (accum pd))
                  (searchProduction q (accum sd) tv sp year) 1 1).report =
                  accum rd := by
                simp [runReportStage, hrr, hr]
              rw [he3]
              exact hr
        · have he2 : runSearchStage q m tv sp year ["plan"]
              (planPost q (accum pd)) 1 = exceptOut q ["plan"] 1 1 0 := by
            simp [runSearchStage, hsr, hpr]
          rw [he2]
          exact errorReportText_ne_empty q
  · intro hp
    simp [runQuery, hp]
  · intro pd sd rd hp hsr hrr hpr
    have he : runQuery q m tv sp year [] =
        runReportStage q m ["plan", "search"] (planPost q (accum pd))
          (searchProduction q (accum sd) tv sp year) 1 1 := by
      simp [runQuery, runSearchStage, hp, hsr, hpr]
    refine ⟨?_, ?_, ?_⟩
    · rw [he]
      simp [runReportStage, hrr]
    · rw [he]
      have : (runReportStage q m ["plan", "search"] (planPost q (accum pd))
          (searchProduction q (accum sd) tv sp year) 1 1).results =
          searchProduction q (accum sd) tv sp year := by
        simp [runReportStage, hrr]
      rw [this]
      exact searchProduction_ne_nil q (accum sd) tv sp year
    · rw [he]
      simp [runReportStage, hrr]

/-- C1 (witness): the amended claim's good path at a concrete run. -/
theorem C1_witness :
    (runQuery "q" ⟨some ["p"], some ["x"], some ["y"]⟩
      none none "2025" []).results ≠ [] :=
  ((C1_main "q" ⟨some ["p"], some ["x"], some ["y"]⟩ none none "2025").2.2
    ["p"] ["x"] ["y"] rfl rfl rfl (by decide)).2.1

/-- C2 (counterexample): in a run whose Plan-stage model invocation raises,
the Plan capability is invoked once but the Search capability is invoked
*zero* times — a harness does not observe exactly one call per stage per
run. -/
theorem C2_counterexample :
    (runQuery "q" ⟨none, none, none⟩ none none "2025" []).planCalls = 1 ∧
    (runQuery "q" ⟨none, none, none⟩ none none "2025" []).searchCalls = 0 ∧
    (runQuery "q" ⟨none, none, none⟩ none none "2025" []).reportCalls = 0 := by
  refine ⟨by decide, by decide, by decide⟩

/-- C2 (amended): within one run each stage's capability is invoked *at
most* once; a stage whose identifier is already in the completed-stages set
is skipped and its capability is never invoked; and the counts are exactly
one per stage when the run starts with an empty completed set, the Plan and
Search invocations return, and the sources print succeeds (a raising Report
invocation still counts as its one invocation). -/
theorem C2_main : ∀ (q : String) (m : ModelRuns) (tv sp : Option (List RawRec))
    (year : String) (s0 : List String),
    (runQuery q m tv sp year s0).planCalls ≤ 1 ∧
    (runQuery q m tv sp year s0).searchCalls ≤ 1 ∧
    (runQuery q m tv sp year s0).reportCalls ≤ 1 ∧
    ("plan" ∈ s0 → (runQuery q m tv sp year s0).planCalls = 0) ∧
    ("search" ∈ s0 → (runQuery q m tv sp year s0).searchCalls = 0) ∧
    ("report" ∈ s0 → (runQuery q m tv sp year s0).reportCalls = 0) ∧
    (∀ pd sd, s0 = [] → m.planRun = some pd → m.searchRun = some sd →
      sourcesPrintOk (searchProduction q (accum sd) tv sp year) = true →
      (runQuery q m tv sp year s0).planCalls = 1 ∧
      (runQuery q m tv sp year s0).searchCalls = 1 ∧
      (runQuery q m tv sp year s0).reportCalls = 1) := by
  intro q m tv sp year s0
  by_cases hm : "plan" ∈ s0
  · have he : runQuery q m tv sp year s0 =
        runSearchStage q m tv sp year s0 "" 0 := by
      simp [runQuery, hm]
    have hs := runSearchStage_counts q m tv sp year s0 "" 0
    rw [he]
    refine ⟨by rw [hs.1]; exact Nat.zero_le 1, hs.2.1, hs.2.2.1,
      fun _ => hs.1, hs.2.2.2.1, hs.2.2.2.2, ?_⟩
    intro pd sd h0 _ _ _
    subst h0
    exact absurd hm (List.not_mem_nil _)
  · cases hp : m.planRun with
    | none =>
      have he : runQuery q m tv sp year s0 = exceptOut q s0 1 0 0 := by
        simp [runQuery, hm, hp]
      rw [he]
      refine ⟨Nat.le_refl 1, Nat.zero_le 1, Nat.zero_le 1,
        fun h => absurd h hm, fun _ => rfl, fun _ => rfl, ?_⟩
      intro pd sd _ hpd _ _
      exact Option.noConfusion hpd
    | some pd0 =>
      have he : runQuery q m tv sp year s0 =
          runSearchStage q m tv sp year (s0 ++ ["plan"])
            (planPost q (accum pd0)) 1 := by
        simp [runQuery, hm, hp]
      have hs := runSearchStage_counts q m tv sp year (s0 ++ ["plan"])
        (planPost q (accum pd0)) 1
      rw [he]
      refine ⟨by rw [hs.1], hs.2.1, hs.2.2.1,
        fun h => absurd h hm,
        fun h => hs.2.2.2.1 (List.mem_append_left _ h),
        fun h => hs.2.2.2.2 (List.mem_append_left _ h), ?_⟩
      intro pd sd h0 hpd hsd hpr
      subst h0
      have he2 : runSearchStage q m tv sp year ([] ++ ["plan"])
          (planPost q (accum pd0)) 1 =
          runReportStage q m (["plan"] ++ ["search"]) (planPost q (accum pd0))
            (searchProduction q (accum sd) tv sp year) 1 1 := by
        simp [runSearchStage, hsd, hpr]
      rw [he2]
      have hrep := runReportStage_counts q m (["plan"] ++ ["search"])
        (planPost q (accum pd0)) (searchProduction q (accum sd) tv sp year) 1 1
      exact ⟨hrep.1, hrep.2.1, hrep.2.2.2.2 (by decide)⟩

/-- C2 (witness): exactly one invocation per stage in a concrete clean run. -/
theorem C2_witness :
    (runQuery "q" ⟨some ["p"], some ["x"], some ["y"]⟩
      none none "2025" []).planCalls = 1 ∧
    (runQuery "q" ⟨some ["p"], some ["x"], some ["y"]⟩
      none none "2025" []).searchCalls = 1 ∧
    (runQuery "q" ⟨some ["p"], some ["x"], some ["y"]⟩
      none none "2025" []).reportCalls = 1 :=
  (C2_main "q" ⟨some ["p"], some ["x"], some ["y"]⟩ none none "2025" []).2.2.2.2.2.2
    ["p"] ["x"] rfl rfl rfl (by decide)
